import Mathlib

/-!
Shallow embedding of the `#[pymodule]` attribute-resolution and
registration-generation pipeline of `src/derive/src/pymodule.rs`.

Rust syntax values are abstracted to the fields the pipeline actually
reads: an annotation (`syn::Attribute`) keeps its path segments, its
optional `name = "..."` argument, whether it carries a `noattr` marker,
and its optional `module = "..."` argument; an item keeps its kind and
its annotation list.  Fallible Rust code is modelled with an explicit
result type that also has constructors for a panic (`assert!`,
`unwrap`, out-of-range `Vec` indexing) and for divergence: the first
classification loop in `attrs_to_pyitems` peeks an iterator and
`continue`s without advancing it when an annotation has no
single-segment identifier, so on such input it never terminates, which
the embedding records as `RResult.diverges`.
-/

set_option autoImplicit false

namespace RP

/-- A `syn::Attribute`, abstracted to the fields read by the pipeline:
the path segments, the optional explicit `name = "..."` argument, the
presence of a `noattr` marker, and the optional `module = "..."`
argument. -/
structure Attr where
  path : List String
  nameArg : Option String
  noattr : Bool
  moduleArg : Option String
deriving DecidableEq, Repr

/-- `Attribute::get_ident`: the single path segment, if the path is a
plain one-segment identifier. -/
def Attr.get_ident (a : Attr) : Option String :=
  match a.path with
  | [x] => some x
  | _ => none

/-- Modelled from the spec: `ALL_ALLOWED_NAMES` lives in `util.rs`,
which is not under `src/`.  The role annotations the module pipeline
recognizes are the function role, the attribute role and the two
class-like (composing) roles (spec sections 3 and 4.2; `new_item` in
`pymodule.rs` handles exactly these names). -/
def ALL_ALLOWED_NAMES : List String :=
  ["pyfunction", "pyattr", "pyclass", "pystruct_sequence"]

/-- Result of running a piece of the (fallible, panicking, possibly
non-terminating) Rust pipeline. -/
inductive RResult (A : Type) where
  | diverges
  | panicked
  | error (msg : String)
  | ok (a : A)
deriving DecidableEq, Repr

instance : Monad RResult where
  pure := RResult.ok
  bind := fun r f =>
    match r with
    | .ok a => f a
    | .diverges => .diverges
    | .panicked => .panicked
    | .error m => .error m

/-- The first loop of `attrs_to_pyitems` (pymodule.rs lines 110-125):
walk the enumerated annotations, collecting `cfg` guards, skipping
other recognized-as-foreign names, and stopping (keeping the rest)
at the first role annotation.  When an annotation has no
single-segment identifier the Rust loop takes `continue` without
calling `iter.next()` on the peekable iterator, so it loops forever:
modelled as `RResult.diverges`. -/
def phase1 : List (Nat × Attr) → List Attr → RResult (List Attr × List (Nat × Attr))
  | [], cfgs => .ok (cfgs, [])
  | (i, a) :: rest, cfgs =>
    match a.get_ident with
    | none => .diverges
    | some attr_name =>
      if attr_name = "cfg" then phase1 rest (cfgs ++ [a])
      else if attr_name ∈ ALL_ALLOWED_NAMES then .ok (cfgs, (i, a) :: rest)
      else phase1 rest cfgs

/-- Mutable state of the second loop of `attrs_to_pyitems`:
the `closed` flag, the pending `pyattrs` buffer of
(index, attribute-name) pairs, and the `result` vector. -/
structure ScanState (R : Type) where
  closed : Bool
  pyattrs : List (Nat × String)
  result : List R
deriving DecidableEq, Repr

/-- One iteration of the second loop of `attrs_to_pyitems`
(pymodule.rs lines 129-176). -/
def phase2Step {R : Type} (newItem : Nat → String → Option (List Nat) → R)
    (s : ScanState R) : Nat × Attr → RResult (ScanState R)
  | (i, a) =>
    match a.get_ident with
    | none => .ok s
    | some attr_name =>
      if attr_name = "cfg" then
        .error "#[py*] items must be placed under `cfgs`"
      else if attr_name ∉ ALL_ALLOWED_NAMES then .ok s
      else if s.closed then
        .error "Only one #[pyattr] annotated #[py*] item can exist"
      else if attr_name = "pyattr" then
        match s.result with
        | [] => .ok { s with pyattrs := s.pyattrs ++ [(i, attr_name)] }
        | _ :: _ => .error "#[pyattr] must be placed on top of other #[py*] items"
      else if s.pyattrs = [] then
        .ok { s with result := s.result ++ [newItem i attr_name none] }
      else if attr_name ≠ "pyclass" ∧ attr_name ≠ "pystruct_sequence" then
        .error "#[pyattr] #[pyclass] is the only supported composition"
      else
        .ok { closed := true, pyattrs := [],
              result := s.result ++ [newItem i attr_name (some (s.pyattrs.map Prod.fst))] }

/-- The second loop of `attrs_to_pyitems`, folded over the remaining
enumerated annotations; the first error aborts the scan. -/
def phase2List {R : Type} (newItem : Nat → String → Option (List Nat) → R) :
    List (Nat × Attr) → ScanState R → RResult (ScanState R)
  | [], s => .ok s
  | x :: xs, s =>
    match phase2Step newItem s x with
    | .ok s2 => phase2List newItem xs s2
    | .error m => .error m
    | .panicked => .panicked
    | .diverges => .diverges

/-- `attrs_to_pyitems` (pymodule.rs lines 103-182): phase 1 collects
the `cfg` guards preceding the first role annotation, phase 2
classifies the role annotations, and the trailing loop flushes
leftover pending attribute roles, each guarded by `assert!(!closed)`
(modelled as `RResult.panicked` when the assertion would fire). -/
def attrs_to_pyitems {R : Type} (attrs : List Attr)
    (newItem : Nat → String → Option (List Nat) → R) : RResult (List R × List Attr) :=
  match phase1 attrs.enum [] with
  | .diverges => .diverges
  | .panicked => .panicked
  | .error m => .error m
  | .ok (cfgs, rest) =>
    match phase2List newItem rest ⟨false, [], []⟩ with
    | .diverges => .diverges
    | .panicked => .panicked
    | .error m => .error m
    | .ok s =>
      if s.closed ∧ s.pyattrs ≠ [] then .panicked
      else .ok (s.result ++ s.pyattrs.map (fun p => newItem p.1 p.2 none), cfgs)

/-- The typed per-item representation built by `new_item`
(pymodule.rs lines 86-101).  `unreachableItem` stands for the
`unreachable!` arm, never produced for a name in
`ALL_ALLOWED_NAMES`. -/
inductive PyItem where
  | functionItem (index : Nat) (attr_name : String)
  | classItem (index : Nat) (attr_name : String) (pyattrs : List Nat)
  | attributeItem (index : Nat) (attr_name : String)
  | unreachableItem (index : Nat) (attr_name : String)
deriving DecidableEq, Repr

/-- `new_item` (pymodule.rs lines 86-101). -/
def new_item (index : Nat) (attr_name : String) (pyattrs : Option (List Nat)) : PyItem :=
  if attr_name = "pyfunction" then .functionItem index attr_name
  else if attr_name = "pyattr" then .attributeItem index attr_name
  else if attr_name = "pyclass" ∨ attr_name = "pystruct_sequence" then
    .classItem index attr_name (pyattrs.getD [])
  else .unreachableItem index attr_name

/-- A `syn::UseTree`. -/
inductive UseTree where
  | name (ident : String)
  | rename (ident renamed : String)
  | path (ident : String) (tree : UseTree)
  | glob
  | group
deriving DecidableEq, Repr

/-- The kind of a `syn::Item`, abstracted to what the generators
match on. -/
inductive ItemKind where
  | fnItem (ident : String)
  | structItem (ident : String)
  | enumItem (ident : String)
  | constItem (ident : String)
  | useItem (tree : UseTree)
  | otherItem
deriving DecidableEq, Repr

/-- An item of the module body: its kind and its annotation list
(`none` when `item.attrs_mut()` returns `Err`, i.e. the item kind
carries no attributes and the driver skips it). -/
structure Item where
  kind : ItemKind
  attrs : Option (List Attr)
deriving DecidableEq, Repr

/-- The registration statement emitted for one binding.  `setFunc`
abstracts `vm.ctx.new_function_named(#ident, #module, #py_name)` bound
via `__module_set_attr`; `setClass` abstracts
`#ident::make_class(&vm.ctx)` with `__module__` set to the module name
and bound via `__module_set_attr`; `setValue` abstracts
`vm.new_pyobj(#ident)` (with `call = true` for the
`vm.new_pyobj(#ident(vm))` form used on functions). -/
inductive Stmt where
  | setFunc (fnIdent moduleName pyName : String)
  | setClass (classIdent moduleName pyName : String)
  | setValue (ident pyName : String) (call : Bool)
deriving DecidableEq, Repr

/-- One entry of the registration nursery: binding name, its guard
set, and the generated statement. -/
structure Entry where
  name : String
  cfgs : List Attr
  stmt : Stmt
deriving DecidableEq, Repr

/-- The registration nursery. -/
structure ItemNursery where
  items : List Entry
deriving DecidableEq, Repr

/-- Modelled from the spec: `ItemNursery::add_item` lives in
`util.rs`, which is not under `src/`.  Spec section 4.4: if the name
is already present, fail with NameCollisionError; otherwise append,
preserving insertion order and recording the guard set alongside the
statement. -/
def ItemNursery.add_item (n : ItemNursery) (name : String) (cfgs : List Attr)
    (stmt : Stmt) : RResult ItemNursery :=
  if n.items.any (fun e => e.name == name) then
    .error ("duplicate module item: " ++ name)
  else .ok ⟨n.items ++ [Entry.mk name cfgs stmt]⟩

/-- The `Module` context threaded through generation
(pymodule.rs lines 11-14). -/
structure Module where
  name : String
  module_extend_items : ItemNursery
deriving DecidableEq, Repr

/-- `Vec::remove(i)`: the removed element and the shortened list,
panicking when the index is out of range. -/
def removeAt {α : Type} (l : List α) (i : Nat) : RResult (α × List α) :=
  match l[i]? with
  | some a => .ok (a, l.eraseIdx i)
  | none => .panicked

/-- Modelled from the spec: `SimpleItemMeta::simple_name` lives in
`util.rs`, which is not under `src/`.  Spec section 4.3: the explicit
`name` argument if present, else the underlying identifier. -/
def simple_name (a : Attr) (ident : String) : String :=
  a.nameArg.getD ident

/-- Modelled from the spec: `ClassItemMeta::class_name` lives in
`util.rs`, which is not under `src/`.  Spec section 4.3: the explicit
override if present, else the declaration identifier. -/
def class_name_of (a : Attr) (ident : String) : String :=
  a.nameArg.getD ident

/-- `FunctionItem::gen_module_item` (pymodule.rs lines 235-265). -/
def genFunctionItem (index : Nat) (it : ItemKind) (attrs : List Attr)
    (m : Module) (cfgs : List Attr) : RResult (List Attr × Module) :=
  match it with
  | .fnItem ident => do
    let (item_attr, attrs2) ← removeAt attrs index
    match item_attr.get_ident with
    | none => .panicked
    | some _ =>
      let py_name := simple_name item_attr ident
      let stmt := Stmt.setFunc ident m.name py_name
      let n2 ← m.module_extend_items.add_item py_name cfgs stmt
      .ok (attrs2, { m with module_extend_items := n2 })
  | _ => .error "can only be on a function"

/-- The loop over `self.pyattrs.iter().rev()` in
`ClassItem::gen_module_item` (pymodule.rs lines 303-324): each pending
attribute index removes its annotation, resolves its optional explicit
binding name (default: the class name) and adds one entry. -/
def classAttrLoop (ident moduleName cname : String) (cfgs : List Attr) :
    List Nat → List Attr → ItemNursery → RResult (List Attr × ItemNursery)
  | [], attrs, n => .ok (attrs, n)
  | j :: rest, attrs, n => do
    let (attr_attr, attrs2) ← removeAt attrs j
    match attr_attr.get_ident with
    | none => .panicked
    | some _ =>
      let py_name := attr_attr.nameArg.getD cname
      let stmt := Stmt.setClass ident moduleName py_name
      let n2 ← n.add_item py_name cfgs stmt
      classAttrLoop ident moduleName cname cfgs rest attrs2 n2

/-- `ClassItem::gen_module_item` (pymodule.rs lines 267-327): the item
must be a struct or enum; with an empty pending-attribute list the
`noattr` marker is removed and its absence is a fatal error; the
`module = ...` argument is filled if absent; then one entry per
pending attribute index is generated in reverse collection order. -/
def genClassItem (index : Nat) (attr_name : String) (pyattrs : List Nat)
    (it : ItemKind) (attrs : List Attr) (m : Module) (cfgs : List Attr) :
    RResult (List Attr × Module) :=
  let identOpt : Option String :=
    match it with
    | .structItem ident => some ident
    | .enumItem ident => some ident
    | _ => none
  match identOpt with
  | none => .error "can only be on a function"
  | some ident =>
    match attrs[index]? with
    | none => .panicked
    | some class_attr => do
      let class_attr ←
        (match pyattrs, class_attr.noattr with
         | [], false =>
           RResult.error ("#[" ++ attr_name ++
             "] requires #[pyattr] to be a module attribute. To keep it free type, try #["
             ++ attr_name ++ "(noattr)]")
         | [], true => RResult.ok { class_attr with noattr := false }
         | _ :: _, _ => RResult.ok class_attr)
      match class_attr.get_ident with
      | none => .panicked
      | some _ =>
        let module_name := m.name
        let cname := class_name_of class_attr ident
        let class_attr2 := { class_attr with
          moduleArg := some (class_attr.moduleArg.getD module_name) }
        let attrs2 := attrs.set index class_attr2
        let (attrs3, n2) ←
          classAttrLoop ident module_name cname cfgs pyattrs.reverse attrs2
            m.module_extend_items
        .ok (attrs3, { m with module_extend_items := n2 })

/-- The shared tail of `AttributeItem::gen_module_item`
(pymodule.rs lines 331-390): resolve the binding name from the
annotation at `index` (defaulting to the referenced identifier),
remove the annotation, and add one entry binding
`vm.new_pyobj(#ident)` (with `call = true` for the function form
`vm.new_pyobj(#ident(vm))`). -/
def attrStep (index : Nat) (ident : String) (call : Bool) (attrs : List Attr)
    (m : Module) (cfgs : List Attr) : RResult (List Attr × Module) :=
  match attrs[index]? with
  | none => .panicked
  | some a =>
    match a.get_ident with
    | none => .panicked
    | some _ => do
      let py_name := simple_name a ident
      let (_, attrs2) ← removeAt attrs index
      let n2 ← m.module_extend_items.add_item py_name cfgs
        (Stmt.setValue ident py_name call)
      .ok (attrs2, { m with module_extend_items := n2 })

/-- `AttributeItem::gen_module_item` (pymodule.rs lines 329-392): the
item must be a function, a constant, or a `use` whose tree is a path
ending in a plain name or a rename; any other path shape is "can only
be a simple use", and any other item kind (including a `use` whose
top-level tree is not a path) is "can only be on a function, const and
use". -/
def genAttributeItem (index : Nat) (it : ItemKind) (attrs : List Attr)
    (m : Module) (cfgs : List Attr) : RResult (List Attr × Module) :=
  match it with
  | .fnItem ident => attrStep index ident true attrs m cfgs
  | .constItem ident => attrStep index ident false attrs m cfgs
  | .useItem (UseTree.path _ sub) =>
    match sub with
    | .name ident => attrStep index ident false attrs m cfgs
    | .rename _ renamed => attrStep index renamed false attrs m cfgs
    | _ => .error "can only be a simple use"
  | _ => .error "can only be on a function, const and use"

/-- Dispatch of `ModuleItem::gen_module_item` over the typed item
representation. -/
def PyItem.gen_module_item : PyItem → ItemKind → List Attr → Module → List Attr →
    RResult (List Attr × Module)
  | .functionItem index _, it, attrs, m, cfgs => genFunctionItem index it attrs m cfgs
  | .classItem index attr_name pyattrs, it, attrs, m, cfgs =>
    genClassItem index attr_name pyattrs it attrs m cfgs
  | .attributeItem index _, it, attrs, m, cfgs => genAttributeItem index it attrs m cfgs
  | .unreachableItem _ _, _, _, _, _ => .panicked

/-- The `for pyitem in pyitems.iter().rev()` loop of `impl_pymodule`
(pymodule.rs lines 42-49), applied to an already reversed list. -/
def genPyItems : List PyItem → ItemKind → List Attr → Module → List Attr →
    RResult (List Attr × Module)
  | [], _, attrs, m, _ => .ok (attrs, m)
  | p :: ps, it, attrs, m, cfgs =>
    match p.gen_module_item it attrs m cfgs with
    | .ok (attrs2, m2) => genPyItems ps it attrs2 m2 cfgs
    | .error e => .error e
    | .panicked => .panicked
    | .diverges => .diverges

/-- Processing of one module item by the loop of `impl_pymodule`
(pymodule.rs lines 34-55): items without an annotation list are
skipped; otherwise the annotations are classified and each typed item
generates its entries, in reverse order; the (possibly mutated)
annotation list is written back to the item. -/
def processItem (it : Item) (m : Module) : RResult (Item × Module) :=
  match it.attrs with
  | none => .ok (it, m)
  | some attrs =>
    match attrs_to_pyitems attrs new_item with
    | .ok (pyitems, cfgs) =>
      match genPyItems pyitems.reverse it.kind attrs m cfgs with
      | .ok (attrs2, m2) => .ok ({ it with attrs := some attrs2 }, m2)
      | .error e => .error e
      | .panicked => .panicked
      | .diverges => .diverges
    | .error e => .error e
    | .panicked => .panicked
    | .diverges => .diverges

/-- The item loop of `impl_pymodule`, over all items of the module
body. -/
def processItems : List Item → Module → RResult (List Item × Module)
  | [], m => .ok ([], m)
  | it :: rest, m => do
    let (it2, m2) ← processItem it m
    let (rest2, m3) ← processItems rest m2
    .ok (it2 :: rest2, m3)

/-- The output of `impl_pymodule`: the rewritten item list plus the
three appended declarations (the `MODULE_NAME` constant, the
`extend_module` routine built from the nursery, and the `make_module`
routine). -/
structure ModuleOutput where
  items : List Item
  moduleName : String
  extendItems : ItemNursery
deriving DecidableEq, Repr

/-- `impl_pymodule` (pymodule.rs lines 16-84), starting from the
already resolved module name (`SimpleItemMeta::simple_name` on the
module identifier and the attribute arguments). -/
def impl_pymodule (moduleName : String) (items : List Item) : RResult ModuleOutput :=
  match processItems items ⟨moduleName, ⟨[]⟩⟩ with
  | .ok (items2, mfinal) => .ok ⟨items2, mfinal.name, mfinal.module_extend_items⟩
  | .error e => .error e
  | .panicked => .panicked
  | .diverges => .diverges

/-- A runtime value produced by a registration statement. -/
inductive Value where
  | functionVal (fnIdent moduleName pyName : String)
  | classVal (classIdent moduleName : String)
  | pyobjVal (ident : String) (call : Bool)
deriving DecidableEq, Repr

/-- A runtime module object: its name and its attribute dictionary
(most recent binding first). -/
structure ModuleObj where
  modName : String
  dict : List (String × Value)
deriving DecidableEq, Repr

/-- The name a statement binds under (`#py_name` in
`vm.__module_set_attr(&module, #py_name, ...)`). -/
def Stmt.bindName : Stmt → String
  | .setFunc _ _ p => p
  | .setClass _ _ p => p
  | .setValue _ p _ => p

/-- The value a statement binds. -/
def Stmt.value : Stmt → Value
  | .setFunc f mo p => .functionVal f mo p
  | .setClass c mo _ => .classVal c mo
  | .setValue i _ c => .pyobjVal i c

/-- `vm.__module_set_attr`. -/
def ModuleObj.setAttr (m : ModuleObj) (k : String) (v : Value) : ModuleObj :=
  ⟨m.modName, (k, v) :: m.dict⟩

/-- Run one nursery entry against a module object, under a
conditional-compilation environment deciding which `cfg` guards are
active: the statement executes only when all its guards are active. -/
def runEntry (env : Attr → Bool) (m : ModuleObj) (e : Entry) : ModuleObj :=
  if e.cfgs.all env then m.setAttr e.stmt.bindName e.stmt.value else m

/-- Semantics of the generated `extend_module` routine
(pymodule.rs lines 63-70): run every nursery entry, in insertion
order, against the given module object. -/
def extend_module (env : Attr → Bool) (n : ItemNursery) (module : ModuleObj) :
    ModuleObj :=
  n.items.foldl (runEntry env) module

/-- `vm.new_module(MODULE_NAME, vm.ctx.new_dict())`: a fresh module
object with an empty dictionary. -/
def vm_new_module (name : String) : ModuleObj := ⟨name, []⟩

/-- Semantics of the generated `make_module` routine, transcribed from
its generated tokens (pymodule.rs lines 71-80): build a fresh module
object under `MODULE_NAME`, run `extend_module` on it, return it. -/
def make_module (env : Attr → Bool) (out : ModuleOutput) : ModuleObj :=
  let module := vm_new_module out.moduleName
  extend_module env out.extendItems module

/-- The spec's wording for the "make" routine (spec section 6):
constructing an empty module object under the module name constant and
invoking the generated "extend" routine on it, returning that module
object. -/
def make_module_specified (env : Attr → Bool) (out : ModuleOutput) : ModuleObj :=
  extend_module env out.extendItems ⟨out.moduleName, []⟩

/-- A guard annotation: named `cfg` through a single-segment path
(the `attr_name == "cfg"` tests of `attrs_to_pyitems`). -/
def isCfgAttr (a : Attr) : Bool := a.get_ident == some "cfg"

/-- A non-role annotation with a plain single-segment name: either a
`cfg` guard (collected but consuming nothing) or an unrecognized
annotation (skipped).  An item all of whose annotations satisfy this
carries no role annotation and classification leaves it alone. -/
def harmlessAttr (a : Attr) : Bool :=
  match a.get_ident with
  | some nm => !(ALL_ALLOWED_NAMES.contains nm)
  | none => false

/-! ### Helper lemmas about the classification scan -/

@[simp] theorem RResult.bind_ok {A B : Type} (a : A) (f : A → RResult B) :
    (RResult.ok a >>= f) = f a := rfl

@[simp] theorem RResult.bind_error {A B : Type} (m : String) (f : A → RResult B) :
    ((RResult.error m : RResult A) >>= f) = RResult.error m := rfl

@[simp] theorem RResult.bind_panicked {A B : Type} (f : A → RResult B) :
    ((RResult.panicked : RResult A) >>= f) = RResult.panicked := rfl

@[simp] theorem RResult.bind_diverges {A B : Type} (f : A → RResult B) :
    ((RResult.diverges : RResult A) >>= f) = RResult.diverges := rfl

@[simp] theorem RResult.pure_eq_ok {A : Type} (a : A) :
    (pure a : RResult A) = RResult.ok a := rfl

theorem phase2List_append {R : Type} (ni : Nat → String → Option (List Nat) → R)
    (l1 l2 : List (Nat × Attr)) (s : ScanState R) :
    phase2List ni (l1 ++ l2) s =
      match phase2List ni l1 s with
      | .ok s1 => phase2List ni l2 s1
      | .error m => .error m
      | .panicked => .panicked
      | .diverges => .diverges := by
  induction l1 generalizing s with
  | nil => simp [phase2List]
  | cons x xs ih =>
    simp only [List.cons_append, phase2List]
    cases phase2Step ni s x <;> simp [ih]

theorem phase2Step_inv {R : Type} {ni : Nat → String → Option (List Nat) → R}
    {s s2 : ScanState R} {x : Nat × Attr}
    (h : phase2Step ni s x = .ok s2) (hs : s.closed = true → s.pyattrs = []) :
    s2.closed = true → s2.pyattrs = [] := by
  obtain ⟨i, a⟩ := x
  simp only [phase2Step] at h
  rcases hid : a.get_ident with _ | nm <;> rw [hid] at h <;> dsimp only at h
  · cases h; exact hs
  · split at h
    · cases h
    · split at h
      · cases h; exact hs
      · split at h
        · cases h
        · rename_i hclosed
          split at h
          · split at h
            · cases h; intro hc; exact absurd hc hclosed
            · cases h
          · split at h
            · cases h; intro hc; exact absurd hc hclosed
            · split at h
              · cases h
              · cases h; intro _; rfl

theorem phase2List_inv {R : Type} {ni : Nat → String → Option (List Nat) → R}
    (l : List (Nat × Attr)) {s s2 : ScanState R}
    (h : phase2List ni l s = .ok s2) (hs : s.closed = true → s.pyattrs = []) :
    s2.closed = true → s2.pyattrs = [] := by
  induction l generalizing s with
  | nil => simp only [phase2List, RResult.ok.injEq] at h; subst h; exact hs
  | cons x xs ih =>
    simp only [phase2List] at h
    cases hstep : phase2Step ni s x <;> rw [hstep] at h
    · cases h
    · cases h
    · cases h
    · exact ih h (phase2Step_inv hstep hs)

theorem phase1_ne_panicked (l : List (Nat × Attr)) (acc : List Attr) :
    phase1 l acc ≠ .panicked := by
  induction l generalizing acc with
  | nil => simp [phase1]
  | cons x xs ih =>
    obtain ⟨i, a⟩ := x
    simp only [phase1]
    rcases a.get_ident with _ | nm <;> dsimp only
    · simp
    · split
      · exact ih _
      · split
        · simp
        · exact ih _

theorem phase2Step_ne_panicked {R : Type} (ni : Nat → String → Option (List Nat) → R)
    (s : ScanState R) (x : Nat × Attr) : phase2Step ni s x ≠ .panicked := by
  obtain ⟨i, a⟩ := x
  simp only [phase2Step]
  rcases a.get_ident with _ | nm <;> dsimp only
  · simp
  · split
    · simp
    · split
      · simp
      · split
        · simp
        · split
          · split <;> simp
          · split
            · simp
            · split <;> simp

theorem phase2List_ne_panicked {R : Type} (ni : Nat → String → Option (List Nat) → R)
    (l : List (Nat × Attr)) (s : ScanState R) : phase2List ni l s ≠ .panicked := by
  induction l generalizing s with
  | nil => simp [phase2List]
  | cons x xs ih =>
    simp only [phase2List]
    cases hstep : phase2Step ni s x
    · simp
    · exact absurd hstep (phase2Step_ne_panicked ni s x)
    · simp
    · exact ih _

theorem phase1_ok_split (l : List (Nat × Attr)) (acc cfgs : List Attr)
    (rest : List (Nat × Attr)) (h : phase1 l acc = .ok (cfgs, rest)) :
    ∃ pre, l = pre ++ rest ∧ cfgs = acc ++ (pre.map Prod.snd).filter isCfgAttr := by
  induction l generalizing acc with
  | nil =>
    simp only [phase1, RResult.ok.injEq, Prod.mk.injEq] at h
    obtain ⟨h1, h2⟩ := h
    subst h1; subst h2
    exact ⟨[], by simp⟩
  | cons x xs ih =>
    obtain ⟨i, a⟩ := x
    simp only [phase1] at h
    cases hid : a.get_ident with
    | none => rw [hid] at h; cases h
    | some nm =>
      rw [hid] at h
      try dsimp only at h
      by_cases hcfg : nm = "cfg"
      · rw [if_pos hcfg] at h
        obtain ⟨pre, hpre, hcfgs⟩ := ih _ h
        refine ⟨(i, a) :: pre, by simp [hpre], ?_⟩
        have ha : isCfgAttr a = true := by
          simp [isCfgAttr, hid, hcfg]
        simp [hcfgs, List.filter_cons, ha]
      · rw [if_neg hcfg] at h
        by_cases hall : nm ∈ ALL_ALLOWED_NAMES
        · rw [if_pos hall] at h
          simp only [RResult.ok.injEq, Prod.mk.injEq] at h
          obtain ⟨h1, h2⟩ := h
          subst h1; subst h2
          exact ⟨[], by simp⟩
        · rw [if_neg hall] at h
          obtain ⟨pre, hpre, hcfgs⟩ := ih _ h
          refine ⟨(i, a) :: pre, by simp [hpre], ?_⟩
          have ha : isCfgAttr a = false := by
            simp only [isCfgAttr, hid]
            exact beq_false_of_ne (fun hh => hcfg (Option.some.inj hh))
          simp [hcfgs, List.filter_cons, ha]

theorem phase2Step_cfg {R : Type} (ni : Nat → String → Option (List Nat) → R)
    (s : ScanState R) (i : Nat) (a : Attr) (h : a.get_ident = some "cfg") :
    phase2Step ni s (i, a) = .error "#[py*] items must be placed under `cfgs`" := by
  simp [phase2Step, h]

theorem phase2List_ok_no_cfg {R : Type} {ni : Nat → String → Option (List Nat) → R}
    (l : List (Nat × Attr)) {s s2 : ScanState R}
    (h : phase2List ni l s = .ok s2) : ∀ x ∈ l, isCfgAttr x.2 = false := by
  induction l generalizing s with
  | nil => intro x hx; cases hx
  | cons y ys ih =>
    intro x hx
    simp only [phase2List] at h
    cases hstep : phase2Step ni s y <;> rw [hstep] at h
    · cases h
    · cases h
    · cases h
    · rcases List.mem_cons.mp hx with hx | hx
      · by_contra hc
        simp only [Bool.not_eq_false, isCfgAttr, beq_iff_eq] at hc
        rw [hx] at hc
        obtain ⟨i, a⟩ := y
        rw [phase2Step_cfg ni s i a hc] at hstep
        cases hstep
      · exact ih h x hx

theorem attrs_to_pyitems_ok_cfgs {R : Type}
    (ni : Nat → String → Option (List Nat) → R) (attrs : List Attr)
    (pyitems : List R) (cfgs : List Attr)
    (h : attrs_to_pyitems attrs ni = .ok (pyitems, cfgs)) :
    cfgs = attrs.filter isCfgAttr := by
  unfold attrs_to_pyitems at h
  cases h1 : phase1 attrs.enum [] with
  | diverges => rw [h1] at h; cases h
  | panicked => rw [h1] at h; cases h
  | error m => rw [h1] at h; cases h
  | ok p =>
    obtain ⟨cfgs1, rest⟩ := p
    rw [h1] at h
    dsimp only at h
    cases h2 : phase2List ni rest ⟨false, [], []⟩ with
    | diverges => rw [h2] at h; cases h
    | panicked => rw [h2] at h; cases h
    | error m => rw [h2] at h; cases h
    | ok s =>
      rw [h2] at h
      dsimp only at h
      split at h
      · cases h
      · simp only [RResult.ok.injEq, Prod.mk.injEq] at h
        obtain ⟨-, hcf⟩ := h
        subst hcf
        obtain ⟨pre, hpre, hc1⟩ := phase1_ok_split attrs.enum [] cfgs1 rest h1
        have hattrs : attrs = pre.map Prod.snd ++ rest.map Prod.snd := by
          have := List.enum_map_snd attrs
          rw [hpre, List.map_append] at this
          exact this.symm
        have hrest : (rest.map Prod.snd).filter isCfgAttr = [] := by
          rw [List.filter_eq_nil_iff]
          intro a ha
          obtain ⟨y, hy, hya⟩ := List.mem_map.mp ha
          subst hya
          simp [phase2List_ok_no_cfg rest h2 y hy]
        rw [hattrs, List.filter_append, hrest]
        simpa using hc1

theorem ItemNursery.add_item_ok_items {n n2 : ItemNursery} {name : String}
    {cfgs : List Attr} {stmt : Stmt} (h : n.add_item name cfgs stmt = .ok n2) :
    n2.items = n.items ++ [Entry.mk name cfgs stmt] := by
  unfold ItemNursery.add_item at h
  split at h
  · cases h
  · cases h; rfl

theorem classAttrLoop_extend (ident mo cn : String) (cfgs : List Attr)
    (js : List Nat) :
    ∀ (attrsC : List Attr) (n : ItemNursery) (attrsF : List Attr) (nf : ItemNursery),
    classAttrLoop ident mo cn cfgs js attrsC n = .ok (attrsF, nf) →
    ∃ L, nf.items = n.items ++ L ∧ ∀ e ∈ L, e.cfgs = cfgs := by
  induction js with
  | nil =>
    intro attrsC n attrsF nf h
    simp only [classAttrLoop, RResult.ok.injEq, Prod.mk.injEq] at h
    obtain ⟨-, h2⟩ := h
    subst h2
    exact ⟨[], by simp⟩
  | cons j rest ih =>
    intro attrsC n attrsF nf h
    simp only [classAttrLoop] at h
    cases hg : attrsC[j]? with
    | none => simp [removeAt, hg] at h
    | some a =>
      simp only [removeAt, hg, RResult.bind_ok] at h
      cases hid : a.get_ident with
      | none => rw [hid] at h; cases h
      | some g =>
        rw [hid] at h
        try dsimp only at h
        cases ha : n.add_item (a.nameArg.getD cn) cfgs
            (Stmt.setClass ident mo (a.nameArg.getD cn)) with
        | diverges => rw [ha] at h; cases h
        | panicked => rw [ha] at h; cases h
        | error m => rw [ha] at h; cases h
        | ok n1 =>
          rw [ha] at h
          try dsimp only at h
          obtain ⟨L, hL, hcf⟩ := ih _ _ _ _ h
          refine ⟨Entry.mk (a.nameArg.getD cn) cfgs
            (Stmt.setClass ident mo (a.nameArg.getD cn)) :: L, ?_, ?_⟩
          · rw [hL, ItemNursery.add_item_ok_items ha]
            simp
          · intro e he
            rcases List.mem_cons.mp he with he | he
            · subst he; rfl
            · exact hcf e he

theorem genFunctionItem_extend {index : Nat} {it : ItemKind} {attrs : List Attr}
    {m : Module} {cfgs : List Attr} {attrsF : List Attr} {m2 : Module}
    (h : genFunctionItem index it attrs m cfgs = .ok (attrsF, m2)) :
    ∃ L, m2.module_extend_items.items = m.module_extend_items.items ++ L ∧
      ∀ e ∈ L, e.cfgs = cfgs := by
  cases it
  case structItem ident => simp [genFunctionItem] at h
  case enumItem ident => simp [genFunctionItem] at h
  case constItem ident => simp [genFunctionItem] at h
  case useItem t => simp [genFunctionItem] at h
  case otherItem => simp [genFunctionItem] at h
  case fnItem ident =>
    simp only [genFunctionItem] at h
    cases hg : attrs[index]? with
    | none => simp [removeAt, hg] at h
    | some a =>
      simp only [removeAt, hg, RResult.bind_ok] at h
      cases hid : a.get_ident with
      | none => rw [hid] at h; cases h
      | some g =>
        rw [hid] at h
        try dsimp only at h
        cases ha : m.module_extend_items.add_item (simple_name a ident) cfgs
            (Stmt.setFunc ident m.name (simple_name a ident)) with
        | diverges => rw [ha] at h; cases h
        | panicked => rw [ha] at h; cases h
        | error msg => rw [ha] at h; cases h
        | ok n1 =>
          rw [ha] at h
          simp only [RResult.bind_ok, RResult.ok.injEq, Prod.mk.injEq] at h
          obtain ⟨-, hm2⟩ := h
          subst hm2
          exact ⟨_, ItemNursery.add_item_ok_items ha, by simp⟩

theorem attrStep_extend {index : Nat} {ident : String} {call : Bool}
    {attrs : List Attr} {m : Module} {cfgs : List Attr}
    {attrsF : List Attr} {m2 : Module}
    (h : attrStep index ident call attrs m cfgs = .ok (attrsF, m2)) :
    ∃ L, m2.module_extend_items.items = m.module_extend_items.items ++ L ∧
      ∀ e ∈ L, e.cfgs = cfgs := by
  simp only [attrStep] at h
  cases hg : attrs[index]? with
  | none => rw [hg] at h; cases h
  | some a =>
    rw [hg] at h
    try dsimp only at h
    cases hid : a.get_ident with
    | none => rw [hid] at h; cases h
    | some g =>
      rw [hid] at h
      try dsimp only at h
      simp only [removeAt, hg, RResult.bind_ok] at h
      cases ha : m.module_extend_items.add_item (simple_name a ident) cfgs
          (Stmt.setValue ident (simple_name a ident) call) with
      | diverges => rw [ha] at h; cases h
      | panicked => rw [ha] at h; cases h
      | error msg => rw [ha] at h; cases h
      | ok n1 =>
        rw [ha] at h
        simp only [RResult.bind_ok, RResult.ok.injEq, Prod.mk.injEq] at h
        obtain ⟨-, hm2⟩ := h
        subst hm2
        exact ⟨_, ItemNursery.add_item_ok_items ha, by simp⟩

theorem genAttributeItem_extend {index : Nat} {it : ItemKind} {attrs : List Attr}
    {m : Module} {cfgs : List Attr} {attrsF : List Attr} {m2 : Module}
    (h : genAttributeItem index it attrs m cfgs = .ok (attrsF, m2)) :
    ∃ L, m2.module_extend_items.items = m.module_extend_items.items ++ L ∧
      ∀ e ∈ L, e.cfgs = cfgs := by
  cases it with
  | fnItem ident => exact attrStep_extend h
  | constItem ident => exact attrStep_extend h
  | useItem tree =>
    cases tree with
    | path seg sub =>
      cases sub with
      | name ident => exact attrStep_extend h
      | rename ident renamed => exact attrStep_extend h
      | path x t => simp [genAttributeItem] at h
      | glob => simp [genAttributeItem] at h
      | group => simp [genAttributeItem] at h
    | name x => simp [genAttributeItem] at h
    | rename x y => simp [genAttributeItem] at h
    | glob => simp [genAttributeItem] at h
    | group => simp [genAttributeItem] at h
  | structItem ident => simp [genAttributeItem] at h
  | enumItem ident => simp [genAttributeItem] at h
  | otherItem => simp [genAttributeItem] at h

theorem genClassItem_struct_extend {index : Nat} {attr_name : String}
    {pyattrs : List Nat} {ident : String} {attrs : List Attr} {m : Module}
    {cfgs : List Attr} {attrsF : List Attr} {m2 : Module}
    (h : genClassItem index attr_name pyattrs (ItemKind.structItem ident) attrs m cfgs
      = .ok (attrsF, m2)) :
    ∃ L, m2.module_extend_items.items = m.module_extend_items.items ++ L ∧
      ∀ e ∈ L, e.cfgs = cfgs := by
  simp only [genClassItem] at h
  cases hg : attrs[index]? with
  | none => rw [hg] at h; cases h
  | some ca =>
    rw [hg] at h
    try dsimp only at h
    rcases hna : (match pyattrs, ca.noattr with
      | [], false =>
        RResult.error ("#[" ++ attr_name ++
          "] requires #[pyattr] to be a module attribute. To keep it free type, try #["
          ++ attr_name ++ "(noattr)]")
      | [], true => RResult.ok { ca with noattr := false }
      | _ :: _, _ => RResult.ok ca) with _ | _ | msg | ca2
    all_goals rw [hna] at h
    · cases h
    · cases h
    · cases h
    · simp only [RResult.bind_ok] at h
      cases hid : ca2.get_ident with
      | none => rw [hid] at h; cases h
      | some g =>
        rw [hid] at h
        try dsimp only at h
        cases hl : classAttrLoop ident m.name (class_name_of ca2 ident) cfgs
            pyattrs.reverse
            (attrs.set index { ca2 with moduleArg := some (ca2.moduleArg.getD m.name) })
            m.module_extend_items with
        | diverges => rw [hl] at h; cases h
        | panicked => rw [hl] at h; cases h
        | error msg => rw [hl] at h; cases h
        | ok r =>
          obtain ⟨attrs3, nf⟩ := r
          rw [hl] at h
          simp only [RResult.bind_ok, RResult.ok.injEq, Prod.mk.injEq] at h
          obtain ⟨-, hm2⟩ := h
          subst hm2
          exact classAttrLoop_extend _ _ _ _ _ _ _ _ _ hl

theorem genClassItem_extend {index : Nat} {attr_name : String} {pyattrs : List Nat}
    {it : ItemKind} {attrs : List Attr} {m : Module} {cfgs : List Attr}
    {attrsF : List Attr} {m2 : Module}
    (h : genClassItem index attr_name pyattrs it attrs m cfgs = .ok (attrsF, m2)) :
    ∃ L, m2.module_extend_items.items = m.module_extend_items.items ++ L ∧
      ∀ e ∈ L, e.cfgs = cfgs := by
  cases it
  case fnItem ident => simp [genClassItem] at h
  case constItem ident => simp [genClassItem] at h
  case useItem t => simp [genClassItem] at h
  case otherItem => simp [genClassItem] at h
  case structItem ident => exact genClassItem_struct_extend h
  case enumItem ident =>
    have h2 : genClassItem index attr_name pyattrs (ItemKind.structItem ident)
        attrs m cfgs = .ok (attrsF, m2) := h
    exact genClassItem_struct_extend h2

theorem gen_module_item_extend {p : PyItem} {it : ItemKind} {attrs : List Attr}
    {m : Module} {cfgs : List Attr} {attrsF : List Attr} {m2 : Module}
    (h : p.gen_module_item it attrs m cfgs = .ok (attrsF, m2)) :
    ∃ L, m2.module_extend_items.items = m.module_extend_items.items ++ L ∧
      ∀ e ∈ L, e.cfgs = cfgs := by
  cases p with
  | functionItem index nm => exact genFunctionItem_extend h
  | classItem index nm pyattrs => exact genClassItem_extend h
  | attributeItem index nm => exact genAttributeItem_extend h
  | unreachableItem index nm => cases h

theorem genPyItems_extend (ps : List PyItem) :
    ∀ (it : ItemKind) (attrs : List Attr) (m : Module) (cfgs : List Attr)
      (attrsF : List Attr) (m2 : Module),
    genPyItems ps it attrs m cfgs = .ok (attrsF, m2) →
    ∃ L, m2.module_extend_items.items = m.module_extend_items.items ++ L ∧
      ∀ e ∈ L, e.cfgs = cfgs := by
  induction ps with
  | nil =>
    intro it attrs m cfgs attrsF m2 h
    simp only [genPyItems, RResult.ok.injEq, Prod.mk.injEq] at h
    obtain ⟨-, hm⟩ := h
    subst hm
    exact ⟨[], by simp⟩
  | cons p ps ih =>
    intro it attrs m cfgs attrsF m2 h
    simp only [genPyItems] at h
    cases hp : p.gen_module_item it attrs m cfgs with
    | diverges => rw [hp] at h; cases h
    | panicked => rw [hp] at h; cases h
    | error msg => rw [hp] at h; cases h
    | ok r =>
      obtain ⟨attrs1, m1⟩ := r
      rw [hp] at h
      try dsimp only at h
      obtain ⟨L1, hL1, hc1⟩ := gen_module_item_extend hp
      obtain ⟨L2, hL2, hc2⟩ := ih _ _ _ _ _ _ h
      refine ⟨L1 ++ L2, ?_, ?_⟩
      · rw [hL2, hL1, List.append_assoc]
      · intro e he
        rcases List.mem_append.mp he with he | he
        · exact hc1 e he
        · exact hc2 e he

theorem processItem_extend {it : Item} {m : Module} {it2 : Item} {m2 : Module}
    {attrsL : List Attr}
    (hattrs : it.attrs = some attrsL)
    (h : processItem it m = .ok (it2, m2)) :
    ∃ L, m2.module_extend_items.items = m.module_extend_items.items ++ L ∧
      ∀ e ∈ L, e.cfgs = attrsL.filter isCfgAttr := by
  unfold processItem at h
  rw [hattrs] at h
  try dsimp only at h
  cases hc : attrs_to_pyitems attrsL new_item with
  | diverges => rw [hc] at h; cases h
  | panicked => rw [hc] at h; cases h
  | error msg => rw [hc] at h; cases h
  | ok r =>
    obtain ⟨pyitems, cfgs⟩ := r
    rw [hc] at h
    try dsimp only at h
    cases hgen : genPyItems pyitems.reverse it.kind attrsL m cfgs with
    | diverges => rw [hgen] at h; cases h
    | panicked => rw [hgen] at h; cases h
    | error msg => rw [hgen] at h; cases h
    | ok r2 =>
      obtain ⟨attrsF, mF⟩ := r2
      rw [hgen] at h
      try dsimp only at h
      simp only [RResult.ok.injEq, Prod.mk.injEq] at h
      obtain ⟨-, hm⟩ := h
      subst hm
      have hcf : cfgs = attrsL.filter isCfgAttr :=
        attrs_to_pyitems_ok_cfgs new_item attrsL pyitems cfgs hc
      subst hcf
      exact genPyItems_extend _ _ _ _ _ _ _ hgen

theorem ItemNursery.add_item_nodup {n n2 : ItemNursery} {name : String}
    {cfgs : List Attr} {stmt : Stmt}
    (hnd : (n.items.map Entry.name).Nodup)
    (h : n.add_item name cfgs stmt = .ok n2) :
    (n2.items.map Entry.name).Nodup := by
  unfold ItemNursery.add_item at h
  split at h
  · cases h
  · rename_i hany
    cases h
    have hno : ∀ e ∈ n.items, e.name ≠ name := by
      intro e he heq
      exact hany (List.any_eq_true.mpr ⟨e, he, by simp [heq]⟩)
    simp only [List.map_append, List.map_cons, List.map_nil]
    rw [List.nodup_append]
    refine ⟨hnd, by simp, ?_⟩
    intro a ha hb
    rw [List.mem_singleton] at hb
    subst hb
    obtain ⟨e, he, hee⟩ := List.mem_map.mp ha
    exact hno e he hee

theorem classAttrLoop_preserves (P : ItemNursery → Prop)
    (hP : ∀ (n : ItemNursery) (name : String) (cfgs : List Attr) (stmt : Stmt)
      (n2 : ItemNursery), P n → n.add_item name cfgs stmt = .ok n2 → P n2)
    (ident mo cn : String) (cfgs : List Attr) (js : List Nat) :
    ∀ (attrsC : List Attr) (n : ItemNursery) (attrsF : List Attr) (nf : ItemNursery),
    P n → classAttrLoop ident mo cn cfgs js attrsC n = .ok (attrsF, nf) → P nf := by
  induction js with
  | nil =>
    intro attrsC n attrsF nf hp h
    simp only [classAttrLoop, RResult.ok.injEq, Prod.mk.injEq] at h
    obtain ⟨-, h2⟩ := h
    subst h2
    exact hp
  | cons j rest ih =>
    intro attrsC n attrsF nf hp h
    simp only [classAttrLoop] at h
    cases hg : attrsC[j]? with
    | none => simp [removeAt, hg] at h
    | some a =>
      simp only [removeAt, hg, RResult.bind_ok] at h
      cases hid : a.get_ident with
      | none => rw [hid] at h; cases h
      | some g =>
        rw [hid] at h
        try dsimp only at h
        cases ha : n.add_item (a.nameArg.getD cn) cfgs
            (Stmt.setClass ident mo (a.nameArg.getD cn)) with
        | diverges => rw [ha] at h; cases h
        | panicked => rw [ha] at h; cases h
        | error msg => rw [ha] at h; cases h
        | ok n1 =>
          rw [ha] at h
          try dsimp only at h
          exact ih _ _ _ _ (hP _ _ _ _ _ hp ha) h

theorem genFunctionItem_preserves (P : ItemNursery → Prop)
    (hP : ∀ (n : ItemNursery) (name : String) (cfgs : List Attr) (stmt : Stmt)
      (n2 : ItemNursery), P n → n.add_item name cfgs stmt = .ok n2 → P n2)
    {index : Nat} {it : ItemKind} {attrs : List Attr} {m : Module}
    {cfgs : List Attr} {attrsF : List Attr} {m2 : Module}
    (hp : P m.module_extend_items)
    (h : genFunctionItem index it attrs m cfgs = .ok (attrsF, m2)) :
    P m2.module_extend_items := by
  cases it
  case structItem ident => simp [genFunctionItem] at h
  case enumItem ident => simp [genFunctionItem] at h
  case constItem ident => simp [genFunctionItem] at h
  case useItem t => simp [genFunctionItem] at h
  case otherItem => simp [genFunctionItem] at h
  case fnItem ident =>
    simp only [genFunctionItem] at h
    cases hg : attrs[index]? with
    | none => simp [removeAt, hg] at h
    | some a =>
      simp only [removeAt, hg, RResult.bind_ok] at h
      cases hid : a.get_ident with
      | none => rw [hid] at h; cases h
      | some g =>
        rw [hid] at h
        try dsimp only at h
        cases ha : m.module_extend_items.add_item (simple_name a ident) cfgs
            (Stmt.setFunc ident m.name (simple_name a ident)) with
        | diverges => rw [ha] at h; cases h
        | panicked => rw [ha] at h; cases h
        | error msg => rw [ha] at h; cases h
        | ok n1 =>
          rw [ha] at h
          simp only [RResult.bind_ok, RResult.ok.injEq, Prod.mk.injEq] at h
          obtain ⟨-, hm2⟩ := h
          subst hm2
          exact hP _ _ _ _ _ hp ha

theorem attrStep_preserves (P : ItemNursery → Prop)
    (hP : ∀ (n : ItemNursery) (name : String) (cfgs : List Attr) (stmt : Stmt)
      (n2 : ItemNursery), P n → n.add_item name cfgs stmt = .ok n2 → P n2)
    {index : Nat} {ident : String} {call : Bool} {attrs : List Attr} {m : Module}
    {cfgs : List Attr} {attrsF : List Attr} {m2 : Module}
    (hp : P m.module_extend_items)
    (h : attrStep index ident call attrs m cfgs = .ok (attrsF, m2)) :
    P m2.module_extend_items := by
  simp only [attrStep] at h
  cases hg : attrs[index]? with
  | none => rw [hg] at h; cases h
  | some a =>
    rw [hg] at h
    try dsimp only at h
    cases hid : a.get_ident with
    | none => rw [hid] at h; cases h
    | some g =>
      rw [hid] at h
      try dsimp only at h
      simp only [removeAt, hg, RResult.bind_ok] at h
      cases ha : m.module_extend_items.add_item (simple_name a ident) cfgs
          (Stmt.setValue ident (simple_name a ident) call) with
      | diverges => rw [ha] at h; cases h
      | panicked => rw [ha] at h; cases h
      | error msg => rw [ha] at h; cases h
      | ok n1 =>
        rw [ha] at h
        simp only [RResult.bind_ok, RResult.ok.injEq, Prod.mk.injEq] at h
        obtain ⟨-, hm2⟩ := h
        subst hm2
        exact hP _ _ _ _ _ hp ha

theorem genAttributeItem_preserves (P : ItemNursery → Prop)
    (hP : ∀ (n : ItemNursery) (name : String) (cfgs : List Attr) (stmt : Stmt)
      (n2 : ItemNursery), P n → n.add_item name cfgs stmt = .ok n2 → P n2)
    {index : Nat} {it : ItemKind} {attrs : List Attr} {m : Module}
    {cfgs : List Attr} {attrsF : List Attr} {m2 : Module}
    (hp : P m.module_extend_items)
    (h : genAttributeItem index it attrs m cfgs = .ok (attrsF, m2)) :
    P m2.module_extend_items := by
  cases it with
  | fnItem ident => exact attrStep_preserves P hP hp h
  | constItem ident => exact attrStep_preserves P hP hp h
  | useItem tree =>
    cases tree with
    | path seg sub =>
      cases sub with
      | name ident => exact attrStep_preserves P hP hp h
      | rename ident renamed => exact attrStep_preserves P hP hp h
      | path x t => simp [genAttributeItem] at h
      | glob => simp [genAttributeItem] at h
      | group => simp [genAttributeItem] at h
    | name x => simp [genAttributeItem] at h
    | rename x y => simp [genAttributeItem] at h
    | glob => simp [genAttributeItem] at h
    | group => simp [genAttributeItem] at h
  | structItem ident => simp [genAttributeItem] at h
  | enumItem ident => simp [genAttributeItem] at h
  | otherItem => simp [genAttributeItem] at h

theorem genClassItem_struct_preserves (P : ItemNursery → Prop)
    (hP : ∀ (n : ItemNursery) (name : String) (cfgs : List Attr) (stmt : Stmt)
      (n2 : ItemNursery), P n → n.add_item name cfgs stmt = .ok n2 → P n2)
    {index : Nat} {attr_name : String} {pyattrs : List Nat} {ident : String}
    {attrs : List Attr} {m : Module} {cfgs : List Attr}
    {attrsF : List Attr} {m2 : Module}
    (hp : P m.module_extend_items)
    (h : genClassItem index attr_name pyattrs (ItemKind.structItem ident) attrs m cfgs
      = .ok (attrsF, m2)) :
    P m2.module_extend_items := by
  simp only [genClassItem] at h
  cases hg : attrs[index]? with
  | none => rw [hg] at h; cases h
  | some ca =>
    rw [hg] at h
    try dsimp only at h
    rcases hna : (match pyattrs, ca.noattr with
      | [], false =>
        RResult.error ("#[" ++ attr_name ++
          "] requires #[pyattr] to be a module attribute. To keep it free type, try #["
          ++ attr_name ++ "(noattr)]")
      | [], true => RResult.ok { ca with noattr := false }
      | _ :: _, _ => RResult.ok ca) with _ | _ | msg | ca2
    all_goals rw [hna] at h
    · cases h
    · cases h
    · cases h
    · simp only [RResult.bind_ok] at h
      cases hid : ca2.get_ident with
      | none => rw [hid] at h; cases h
      | some g =>
        rw [hid] at h
        try dsimp only at h
        cases hl : classAttrLoop ident m.name (class_name_of ca2 ident) cfgs
            pyattrs.reverse
            (attrs.set index { ca2 with moduleArg := some (ca2.moduleArg.getD m.name) })
            m.module_extend_items with
        | diverges => rw [hl] at h; cases h
        | panicked => rw [hl] at h; cases h
        | error msg => rw [hl] at h; cases h
        | ok r =>
          obtain ⟨attrs3, nf⟩ := r
          rw [hl] at h
          simp only [RResult.bind_ok, RResult.ok.injEq, Prod.mk.injEq] at h
          obtain ⟨-, hm2⟩ := h
          subst hm2
          exact classAttrLoop_preserves P hP _ _ _ _ _ _ _ _ _ hp hl

theorem genClassItem_preserves (P : ItemNursery → Prop)
    (hP : ∀ (n : ItemNursery) (name : String) (cfgs : List Attr) (stmt : Stmt)
      (n2 : ItemNursery), P n → n.add_item name cfgs stmt = .ok n2 → P n2)
    {index : Nat} {attr_name : String} {pyattrs : List Nat} {it : ItemKind}
    {attrs : List Attr} {m : Module} {cfgs : List Attr}
    {attrsF : List Attr} {m2 : Module}
    (hp : P m.module_extend_items)
    (h : genClassItem index attr_name pyattrs it attrs m cfgs = .ok (attrsF, m2)) :
    P m2.module_extend_items := by
  cases it
  case fnItem ident => simp [genClassItem] at h
  case constItem ident => simp [genClassItem] at h
  case useItem t => simp [genClassItem] at h
  case otherItem => simp [genClassItem] at h
  case structItem ident => exact genClassItem_struct_preserves P hP hp h
  case enumItem ident =>
    have h2 : genClassItem index attr_name pyattrs (ItemKind.structItem ident)
        attrs m cfgs = .ok (attrsF, m2) := h
    exact genClassItem_struct_preserves P hP hp h2

theorem gen_module_item_preserves (P : ItemNursery → Prop)
    (hP : ∀ (n : ItemNursery) (name : String) (cfgs : List Attr) (stmt : Stmt)
      (n2 : ItemNursery), P n → n.add_item name cfgs stmt = .ok n2 → P n2)
    {p : PyItem} {it : ItemKind} {attrs : List Attr} {m : Module}
    {cfgs : List Attr} {attrsF : List Attr} {m2 : Module}
    (hp : P m.module_extend_items)
    (h : p.gen_module_item it attrs m cfgs = .ok (attrsF, m2)) :
    P m2.module_extend_items := by
  cases p with
  | functionItem index nm => exact genFunctionItem_preserves P hP hp h
  | classItem index nm pyattrs => exact genClassItem_preserves P hP hp h
  | attributeItem index nm => exact genAttributeItem_preserves P hP hp h
  | unreachableItem index nm => cases h

theorem genPyItems_preserves (P : ItemNursery → Prop)
    (hP : ∀ (n : ItemNursery) (name : String) (cfgs : List Attr) (stmt : Stmt)
      (n2 : ItemNursery), P n → n.add_item name cfgs stmt = .ok n2 → P n2)
    (ps : List PyItem) :
    ∀ (it : ItemKind) (attrs : List Attr) (m : Module) (cfgs : List Attr)
      (attrsF : List Attr) (m2 : Module),
    P m.module_extend_items →
    genPyItems ps it attrs m cfgs = .ok (attrsF, m2) →
    P m2.module_extend_items := by
  induction ps with
  | nil =>
    intro it attrs m cfgs attrsF m2 hp h
    simp only [genPyItems, RResult.ok.injEq, Prod.mk.injEq] at h
    obtain ⟨-, hm⟩ := h
    subst hm
    exact hp
  | cons p ps ih =>
    intro it attrs m cfgs attrsF m2 hp h
    simp only [genPyItems] at h
    cases hp2 : p.gen_module_item it attrs m cfgs with
    | diverges => rw [hp2] at h; cases h
    | panicked => rw [hp2] at h; cases h
    | error msg => rw [hp2] at h; cases h
    | ok r =>
      obtain ⟨attrs1, m1⟩ := r
      rw [hp2] at h
      try dsimp only at h
      exact ih _ _ _ _ _ _ (gen_module_item_preserves P hP hp hp2) h

theorem processItem_preserves (P : ItemNursery → Prop)
    (hP : ∀ (n : ItemNursery) (name : String) (cfgs : List Attr) (stmt : Stmt)
      (n2 : ItemNursery), P n → n.add_item name cfgs stmt = .ok n2 → P n2)
    {it : Item} {m : Module} {it2 : Item} {m2 : Module}
    (hp : P m.module_extend_items)
    (h : processItem it m = .ok (it2, m2)) :
    P m2.module_extend_items := by
  unfold processItem at h
  cases hat : it.attrs with
  | none => rw [hat] at h; cases h; exact hp
  | some attrsL =>
    rw [hat] at h
    try dsimp only at h
    cases hc : attrs_to_pyitems attrsL new_item with
    | diverges => rw [hc] at h; cases h
    | panicked => rw [hc] at h; cases h
    | error msg => rw [hc] at h; cases h
    | ok r =>
      obtain ⟨pyitems, cfgs⟩ := r
      rw [hc] at h
      try dsimp only at h
      cases hgen : genPyItems pyitems.reverse it.kind attrsL m cfgs with
      | diverges => rw [hgen] at h; cases h
      | panicked => rw [hgen] at h; cases h
      | error msg => rw [hgen] at h; cases h
      | ok r2 =>
        obtain ⟨attrsF, mF⟩ := r2
        rw [hgen] at h
        try dsimp only at h
        simp only [RResult.ok.injEq, Prod.mk.injEq] at h
        obtain ⟨-, hm⟩ := h
        subst hm
        exact genPyItems_preserves P hP _ _ _ _ _ _ _ hp hgen

theorem processItems_preserves (P : ItemNursery → Prop)
    (hP : ∀ (n : ItemNursery) (name : String) (cfgs : List Attr) (stmt : Stmt)
      (n2 : ItemNursery), P n → n.add_item name cfgs stmt = .ok n2 → P n2)
    (items : List Item) :
    ∀ (m : Module) (items2 : List Item) (m2 : Module),
    P m.module_extend_items →
    processItems items m = .ok (items2, m2) →
    P m2.module_extend_items := by
  induction items with
  | nil =>
    intro m items2 m2 hp h
    simp only [processItems, RResult.ok.injEq, Prod.mk.injEq] at h
    obtain ⟨-, hm⟩ := h
    subst hm
    exact hp
  | cons it rest ih =>
    intro m items2 m2 hp h
    simp only [processItems] at h
    cases hp1 : processItem it m with
    | diverges => rw [hp1] at h; cases h
    | panicked => rw [hp1] at h; cases h
    | error msg => rw [hp1] at h; cases h
    | ok r =>
      obtain ⟨it2, m1⟩ := r
      rw [hp1] at h
      simp only [RResult.bind_ok] at h
      cases hp2 : processItems rest m1 with
      | diverges => rw [hp2] at h; cases h
      | panicked => rw [hp2] at h; cases h
      | error msg => rw [hp2] at h; cases h
      | ok r2 =>
        obtain ⟨rest2, mF⟩ := r2
        rw [hp2] at h
        simp only [RResult.bind_ok, RResult.ok.injEq, Prod.mk.injEq] at h
        obtain ⟨-, hm⟩ := h
        subst hm
        exact ih _ _ _ (processItem_preserves P hP hp hp1) hp2

theorem processItem_pyfunction (f : String) (nm : Option String) (m : Module) :
    processItem (Item.mk (ItemKind.fnItem f)
        (some [Attr.mk ["pyfunction"] nm false none])) m =
      (m.module_extend_items.add_item (nm.getD f) []
          (Stmt.setFunc f m.name (nm.getD f)) >>= fun n2 =>
        .ok (Item.mk (ItemKind.fnItem f) (some []),
          { m with module_extend_items := n2 })) := by
  have hcl : attrs_to_pyitems [Attr.mk ["pyfunction"] nm false none] new_item =
      .ok ([PyItem.functionItem 0 "pyfunction"], []) := rfl
  unfold processItem
  dsimp only
  rw [hcl]
  dsimp only
  simp only [List.reverse_cons, List.reverse_nil, List.nil_append, genPyItems,
    PyItem.gen_module_item, genFunctionItem, removeAt, Attr.get_ident,
    simple_name]
  cases ha : m.module_extend_items.add_item (nm.getD f) []
      (Stmt.setFunc f m.name (nm.getD f)) with
  | diverges => simp [ha]
  | panicked => simp [ha]
  | error e => simp [ha]
  | ok n2 => simp [ha, genPyItems]

theorem phase1_all_harmless (l : List (Nat × Attr)) (acc : List Attr)
    (hall : ∀ x ∈ l, harmlessAttr x.2 = true) :
    ∃ cfgs, phase1 l acc = .ok (cfgs, []) := by
  induction l generalizing acc with
  | nil => exact ⟨acc, rfl⟩
  | cons x xs ih =>
    obtain ⟨i, a⟩ := x
    have ha := hall (i, a) (List.mem_cons_self _ _)
    simp only [harmlessAttr] at ha
    cases hid : a.get_ident with
    | none => rw [hid] at ha; cases ha
    | some nm =>
      rw [hid] at ha
      try dsimp only at ha
      have hnotin : nm ∉ ALL_ALLOWED_NAMES := by simpa using ha
      simp only [phase1]
      rw [hid]
      try dsimp only
      by_cases hcfg : nm = "cfg"
      · rw [if_pos hcfg]
        exact ih _ (fun y hy => hall y (List.mem_cons_of_mem _ hy))
      · rw [if_neg hcfg, if_neg hnotin]
        exact ih _ (fun y hy => hall y (List.mem_cons_of_mem _ hy))

/-! ### Claim theorems -/

/-- C10: for every annotation list, classification never hits the
trailing `assert!(!closed)`: whenever the scan marks the composition
closed it also empties the pending attribute buffer, so leftover
standalone attribute-role items never coexist with a closed
composition and `attrs_to_pyitems` never panics. -/
theorem C10_leftover_assert_never_fires {R : Type} (attrs : List Attr)
    (ni : Nat → String → Option (List Nat) → R) :
    attrs_to_pyitems attrs ni ≠ RResult.panicked := by
  unfold attrs_to_pyitems
  cases h1 : phase1 attrs.enum [] with
  | diverges => simp [h1]
  | panicked => exact absurd h1 (phase1_ne_panicked _ _)
  | error m => simp [h1]
  | ok p =>
    obtain ⟨cfgs, rest⟩ := p
    simp only [h1]
    cases h2 : phase2List ni rest ⟨false, [], []⟩ with
    | diverges => simp [h2]
    | panicked => exact absurd h2 (phase2List_ne_panicked ni rest _)
    | error m => simp [h2]
    | ok s =>
      have hinv : s.closed = true → s.pyattrs = [] :=
        phase2List_inv rest h2 (by intro h; cases h)
      simp only [h2]
      split
      · rename_i hcond
        exact absurd (hinv hcond.1) hcond.2
      · simp

/-- C10 witness: the assertion-free outcome at a concrete annotation
list (a pending attribute role followed by a composing role, which
closes the composition). -/
theorem C10_leftover_assert_never_fires_witness :
    attrs_to_pyitems
      [Attr.mk ["pyattr"] none false none, Attr.mk ["pyclass"] none false none]
      new_item ≠ RResult.panicked :=
  C10_leftover_assert_never_fires _ new_item

/-- C2 (code bug): the classification pass is claimed to terminate and
to ignore an annotation whose name is not a plain single-segment
identifier, but the first loop of `attrs_to_pyitems` peeks such an
annotation and `continue`s without advancing the iterator: on an item
annotated only with `#[foo::bar]` classification loops forever instead
of ignoring it. -/
theorem C2_nonident_annotation_diverges :
    attrs_to_pyitems [Attr.mk ["foo", "bar"] none false none] new_item =
      RResult.diverges := rfl

/-- C9: the semantics of the generated `make_module` routine coincides,
for every conditional-compilation environment and every compiled module
output, with constructing an empty module object under the module name
constant and invoking the generated `extend_module` routine on it. -/
theorem C9_make_is_new_module_then_extend (env : Attr → Bool) (out : ModuleOutput) :
    make_module env out = make_module_specified env out := rfl

/-- C1 counterexample: the claim says that after a composing role
annotation has been emitted, any further class-like annotation on the
same item fails with MultipleCompositionError; but a composing role
annotation that arrives while the pending attribute buffer is empty
does not close the composition, so an item with two bare
`#[pyclass(noattr)]` annotations is accepted: both class items are
emitted and the whole item even generates successfully. -/
theorem C1_counterexample :
    attrs_to_pyitems
        [Attr.mk ["pyclass"] none true none, Attr.mk ["pyclass"] none true none]
        new_item =
      RResult.ok ([PyItem.classItem 0 "pyclass" [], PyItem.classItem 1 "pyclass" []], [])
    ∧ processItem
        (Item.mk (ItemKind.structItem "S")
          (some [Attr.mk ["pyclass"] none true none, Attr.mk ["pyclass"] none true none]))
        (Module.mk "m" ⟨[]⟩) =
      RResult.ok
        (Item.mk (ItemKind.structItem "S")
          (some [Attr.mk ["pyclass"] none false (some "m"),
                 Attr.mk ["pyclass"] none false (some "m")]),
         Module.mk "m" ⟨[]⟩) := by
  constructor <;> rfl

/-- C1 (amended): once a composing role annotation has consumed a
nonempty pending attribute buffer the scan marks the composition
closed, and any later class-like or attribute-role annotation on the
same item fails with the MultipleCompositionError message; a composing
annotation arriving while the pending buffer is empty does not close
the composition. -/
theorem C1_closed_composition_rejected
    (attrs cfgs : List Attr) (l post : List (Nat × Attr)) (i : Nat) (a : Attr)
    (st : ScanState PyItem) (n : String)
    (h1 : phase1 attrs.enum [] = .ok (cfgs, l ++ (i, a) :: post))
    (h2 : phase2List new_item l ⟨false, [], []⟩ = .ok st)
    (h3 : st.closed = true)
    (h4 : a.get_ident = some n)
    (h5 : n = "pyattr" ∨ n = "pyclass" ∨ n = "pystruct_sequence") :
    attrs_to_pyitems attrs new_item =
      RResult.error "Only one #[pyattr] annotated #[py*] item can exist" := by
  unfold attrs_to_pyitems
  rw [h1]
  dsimp only
  rw [phase2List_append, h2]
  dsimp only
  have hstep : phase2Step new_item st (i, a) =
      RResult.error "Only one #[pyattr] annotated #[py*] item can exist" := by
    simp only [phase2Step]
    rw [h4]
    rcases h5 with h | h | h <;> subst h <;>
      simp [ALL_ALLOWED_NAMES, h3]
  simp [phase2List, hstep]

/-- C1 witness: the amended behaviour at a concrete annotation list
`#[pyattr] #[pyclass] #[pyclass]`: the first composing annotation
closes the composition and the second fails. -/
theorem C1_closed_composition_rejected_witness :
    attrs_to_pyitems
        [Attr.mk ["pyattr"] none false none, Attr.mk ["pyclass"] none false none,
         Attr.mk ["pyclass"] none false none] new_item =
      RResult.error "Only one #[pyattr] annotated #[py*] item can exist" :=
  C1_closed_composition_rejected
    [Attr.mk ["pyattr"] none false none, Attr.mk ["pyclass"] none false none,
     Attr.mk ["pyclass"] none false none]
    []
    [(0, Attr.mk ["pyattr"] none false none), (1, Attr.mk ["pyclass"] none false none)]
    [] 2 (Attr.mk ["pyclass"] none false none)
    ⟨true, [], [PyItem.classItem 1 "pyclass" [0]]⟩ "pyclass"
    rfl rfl rfl rfl (Or.inr (Or.inl rfl))

/-- C4: a class-like (composing) item whose pending attribute list is
empty and whose role annotation carries no `noattr` opt-out marker
fails with the MissingExposureError message, regardless of the guard
annotations present and of the rest of the annotation list. -/
theorem C4_missing_exposure
    (index : Nat) (attr_name : String) (it : ItemKind) (ident : String)
    (attrs : List Attr) (ca : Attr) (m : Module) (cfgs : List Attr)
    (hkind : it = ItemKind.structItem ident ∨ it = ItemKind.enumItem ident)
    (hget : attrs[index]? = some ca)
    (hnoattr : ca.noattr = false) :
    PyItem.gen_module_item (PyItem.classItem index attr_name []) it attrs m cfgs =
      RResult.error ("#[" ++ attr_name ++
        "] requires #[pyattr] to be a module attribute. To keep it free type, try #["
        ++ attr_name ++ "(noattr)]") := by
  rcases hkind with h | h <;> subst h <;>
    simp [PyItem.gen_module_item, genClassItem, hget, hnoattr, Bind.bind]

/-- C4 witness: the failure at a concrete struct item carrying one
guard and a bare `#[pyclass]` annotation. -/
theorem C4_missing_exposure_witness :
    PyItem.gen_module_item (PyItem.classItem 1 "pyclass" [])
      (ItemKind.structItem "S")
      [Attr.mk ["cfg"] none false none, Attr.mk ["pyclass"] none false none]
      (Module.mk "m" ⟨[]⟩) [Attr.mk ["cfg"] none false none] =
      RResult.error ("#[" ++ "pyclass" ++
        "] requires #[pyattr] to be a module attribute. To keep it free type, try #["
        ++ "pyclass" ++ "(noattr)]") :=
  C4_missing_exposure 1 "pyclass" (ItemKind.structItem "S") "S"
    [Attr.mk ["cfg"] none false none, Attr.mk ["pyclass"] none false none]
    (Attr.mk ["pyclass"] none false none)
    (Module.mk "m" ⟨[]⟩) [Attr.mk ["cfg"] none false none]
    (Or.inl rfl) rfl rfl

/-- C7 counterexample: the claim says every import-alias shape other
than a plain or renamed single-segment path fails with the
UnsupportedPathError message, but a `use` whose top-level tree is not
a path (for example a bare single-segment `use foo;`) falls through to
the generic kind-mismatch arm instead. -/
theorem C7_counterexample :
    PyItem.gen_module_item (PyItem.attributeItem 0 "pyattr")
        (ItemKind.useItem (UseTree.name "foo"))
        [Attr.mk ["pyattr"] none false none] (Module.mk "m" ⟨[]⟩) [] =
      RResult.error "can only be on a function, const and use"
    ∧ ("can only be on a function, const and use" : String) ≠
        "can only be a simple use" :=
  ⟨rfl, by decide⟩

/-- C7 (amended): an attribute-role annotation on an import alias is
accepted exactly when the alias tree is a path whose subtree is a
plain name or a rename, the referenced identifier being the name
(resp. the rename); a path around any other subtree fails with the
UnsupportedPathError message, and a `use` whose top-level tree is not
a path fails with the generic kind-mismatch message. -/
theorem C7_attribute_on_import_alias :
    (∀ (index : Nat) (nm s ident g : String) (attrs : List Attr) (ca : Attr)
       (m : Module) (cfgs : List Attr),
       attrs[index]? = some ca → ca.get_ident = some g →
       PyItem.gen_module_item (PyItem.attributeItem index nm)
           (ItemKind.useItem (UseTree.path s (UseTree.name ident))) attrs m cfgs =
         (m.module_extend_items.add_item (ca.nameArg.getD ident) cfgs
             (Stmt.setValue ident (ca.nameArg.getD ident) false) >>= fun n2 =>
           RResult.ok (attrs.eraseIdx index, { m with module_extend_items := n2 }))) ∧
    (∀ (index : Nat) (nm s ident renamed g : String) (attrs : List Attr) (ca : Attr)
       (m : Module) (cfgs : List Attr),
       attrs[index]? = some ca → ca.get_ident = some g →
       PyItem.gen_module_item (PyItem.attributeItem index nm)
           (ItemKind.useItem (UseTree.path s (UseTree.rename ident renamed))) attrs m cfgs =
         (m.module_extend_items.add_item (ca.nameArg.getD renamed) cfgs
             (Stmt.setValue renamed (ca.nameArg.getD renamed) false) >>= fun n2 =>
           RResult.ok (attrs.eraseIdx index, { m with module_extend_items := n2 }))) ∧
    (∀ (index : Nat) (nm s : String) (sub : UseTree) (attrs : List Attr)
       (m : Module) (cfgs : List Attr),
       (∀ x, sub ≠ UseTree.name x) → (∀ x y, sub ≠ UseTree.rename x y) →
       PyItem.gen_module_item (PyItem.attributeItem index nm)
           (ItemKind.useItem (UseTree.path s sub)) attrs m cfgs =
         RResult.error "can only be a simple use") ∧
    (∀ (index : Nat) (nm : String) (tree : UseTree) (attrs : List Attr)
       (m : Module) (cfgs : List Attr),
       (∀ x t, tree ≠ UseTree.path x t) →
       PyItem.gen_module_item (PyItem.attributeItem index nm)
           (ItemKind.useItem tree) attrs m cfgs =
         RResult.error "can only be on a function, const and use") := by
  refine ⟨?_, ?_, ?_, ?_⟩
  · intro index nm s ident g attrs ca m cfgs hget hid
    simp [PyItem.gen_module_item, genAttributeItem, attrStep, removeAt, hget, hid,
      simple_name]
  · intro index nm s ident renamed g attrs ca m cfgs hget hid
    simp [PyItem.gen_module_item, genAttributeItem, attrStep, removeAt, hget, hid,
      simple_name]
  · intro index nm s sub attrs m cfgs hname hrename
    cases sub with
    | name x => exact absurd rfl (hname x)
    | rename x y => exact absurd rfl (hrename x y)
    | path x t => rfl
    | glob => rfl
    | group => rfl
  · intro index nm tree attrs m cfgs hpath
    cases tree with
    | path x t => exact absurd rfl (hpath x t)
    | name x => rfl
    | rename x y => rfl
    | glob => rfl
    | group => rfl

/-- C7 witness: the amended behaviour at concrete inputs: a renamed
single-segment path alias is accepted and bound under the rename, a
glob below a path fails as a non-simple use, and a top-level group
fails with the kind-mismatch message. -/
theorem C7_attribute_on_import_alias_witness :
    (PyItem.gen_module_item (PyItem.attributeItem 0 "pyattr")
        (ItemKind.useItem (UseTree.path "m" (UseTree.rename "a" "b")))
        [Attr.mk ["pyattr"] none false none] (Module.mk "mod" ⟨[]⟩) [] =
      ((Module.mk "mod" ⟨[]⟩).module_extend_items.add_item "b" []
          (Stmt.setValue "b" "b" false) >>= fun n2 =>
        RResult.ok (([] : List Attr),
          { Module.mk "mod" ⟨[]⟩ with module_extend_items := n2 })))
    ∧ PyItem.gen_module_item (PyItem.attributeItem 0 "pyattr")
        (ItemKind.useItem (UseTree.path "m" UseTree.glob))
        [Attr.mk ["pyattr"] none false none] (Module.mk "mod" ⟨[]⟩) [] =
      RResult.error "can only be a simple use"
    ∧ PyItem.gen_module_item (PyItem.attributeItem 0 "pyattr")
        (ItemKind.useItem UseTree.group)
        [Attr.mk ["pyattr"] none false none] (Module.mk "mod" ⟨[]⟩) [] =
      RResult.error "can only be on a function, const and use" := by
  refine ⟨?_, ?_, ?_⟩
  · have h := C7_attribute_on_import_alias.2.1 0 "pyattr" "m" "a" "b" "pyattr"
      [Attr.mk ["pyattr"] none false none] (Attr.mk ["pyattr"] none false none)
      (Module.mk "mod" ⟨[]⟩) [] rfl rfl
    simpa using h
  · exact C7_attribute_on_import_alias.2.2.1 0 "pyattr" "m" UseTree.glob
      [Attr.mk ["pyattr"] none false none] (Module.mk "mod" ⟨[]⟩) []
      (fun x h => by cases h) (fun x y h => by cases h)
  · exact C7_attribute_on_import_alias.2.2.2 0 "pyattr" UseTree.group
      [Attr.mk ["pyattr"] none false none] (Module.mk "mod" ⟨[]⟩) []
      (fun x t h => by cases h)

/-- C3: guard collection and placement.  First, when processing an
item succeeds, every registration entry generated for it carries, as
its guard set, exactly the `cfg`-named annotations of the item's
annotation list, verbatim and in order.  Second, on any successful
classification the collected guard set is that same filter.  Third, a
guard annotation reached by the second scan (i.e. placed after the
first role annotation) fails with the GuardPlacementError message. -/
theorem C3_guards_collected_and_placement :
    (∀ (it : Item) (m : Module) (it2 : Item) (m2 : Module) (attrsL : List Attr),
       it.attrs = some attrsL → processItem it m = .ok (it2, m2) →
       ∃ L, m2.module_extend_items.items = m.module_extend_items.items ++ L ∧
         ∀ e ∈ L, e.cfgs = attrsL.filter isCfgAttr) ∧
    (∀ (R : Type) (ni : Nat → String → Option (List Nat) → R)
       (attrs : List Attr) (pyitems : List R) (cfgs : List Attr),
       attrs_to_pyitems attrs ni = .ok (pyitems, cfgs) →
       cfgs = attrs.filter isCfgAttr) ∧
    (∀ (R : Type) (ni : Nat → String → Option (List Nat) → R)
       (l1 : List (Nat × Attr)) (i : Nat) (c : Attr) (post : List (Nat × Attr))
       (s s1 : ScanState R),
       phase2List ni l1 s = .ok s1 → c.get_ident = some "cfg" →
       phase2List ni (l1 ++ (i, c) :: post) s =
         .error "#[py*] items must be placed under `cfgs`") := by
  refine ⟨?_, ?_, ?_⟩
  · intro it m it2 m2 attrsL h1 h2
    exact processItem_extend h1 h2
  · intro R ni attrs pyitems cfgs h
    exact attrs_to_pyitems_ok_cfgs ni attrs pyitems cfgs h
  · intro R ni l1 i c post s s1 h1 hcfg
    rw [phase2List_append, h1]
    simp only [phase2List, phase2Step_cfg ni s1 i c hcfg]

/-- C3 witness: on `fn f` annotated `#[cfg] #[pyfunction(name = "hello")]`
the single generated entry carries the `cfg` guard verbatim; the
collected guard set is the `cfg` filter of the list; and a `cfg` guard
after the role annotation makes the second scan fail. -/
theorem C3_guards_collected_and_placement_witness :
    (∃ L,
      (Module.mk "m" ⟨[Entry.mk "hello" [Attr.mk ["cfg"] none false none]
          (Stmt.setFunc "f" "m" "hello")]⟩).module_extend_items.items =
        (Module.mk "m" ⟨[]⟩).module_extend_items.items ++ L ∧
      ∀ e ∈ L, e.cfgs =
        [Attr.mk ["cfg"] none false none,
         Attr.mk ["pyfunction"] (some "hello") false none].filter isCfgAttr) ∧
    ([Attr.mk ["cfg"] none false none] =
      [Attr.mk ["cfg"] none false none,
       Attr.mk ["pyfunction"] (some "hello") false none].filter isCfgAttr) ∧
    (phase2List new_item
        ([(1, Attr.mk ["pyfunction"] (some "hello") false none)] ++
          (2, Attr.mk ["cfg"] none false none) :: []) ⟨false, [], []⟩ =
      .error "#[py*] items must be placed under `cfgs`") := by
  refine ⟨?_, ?_, ?_⟩
  · exact C3_guards_collected_and_placement.1
      (Item.mk (ItemKind.fnItem "f")
        (some [Attr.mk ["cfg"] none false none,
               Attr.mk ["pyfunction"] (some "hello") false none]))
      (Module.mk "m" ⟨[]⟩)
      (Item.mk (ItemKind.fnItem "f") (some [Attr.mk ["cfg"] none false none]))
      (Module.mk "m" ⟨[Entry.mk "hello" [Attr.mk ["cfg"] none false none]
          (Stmt.setFunc "f" "m" "hello")]⟩)
      [Attr.mk ["cfg"] none false none,
       Attr.mk ["pyfunction"] (some "hello") false none]
      rfl rfl
  · exact C3_guards_collected_and_placement.2.1 PyItem new_item
      [Attr.mk ["cfg"] none false none,
       Attr.mk ["pyfunction"] (some "hello") false none]
      [PyItem.functionItem 1 "pyfunction"]
      [Attr.mk ["cfg"] none false none]
      rfl
  · exact C3_guards_collected_and_placement.2.2 PyItem new_item
      [(1, Attr.mk ["pyfunction"] (some "hello") false none)]
      2 (Attr.mk ["cfg"] none false none) []
      ⟨false, [], []⟩
      ⟨false, [], [PyItem.functionItem 1 "pyfunction"]⟩
      rfl rfl

theorem classAttrLoop_spec (ident mo cn : String) (cfgs : List Attr)
    (attrs0 : List Attr) (js : List Nat) :
    ∀ (attrsC : List Attr) (n : ItemNursery) (attrsF : List Attr) (nf : ItemNursery),
    js.Pairwise (· > ·) →
    (∀ j ∈ js, attrsC[j]? = attrs0[j]?) →
    classAttrLoop ident mo cn cfgs js attrsC n = .ok (attrsF, nf) →
    nf.items = n.items ++ js.map (fun j =>
      Entry.mk ((attrs0[j]?.getD (Attr.mk [] none false none)).nameArg.getD cn) cfgs
        (Stmt.setClass ident mo
          ((attrs0[j]?.getD (Attr.mk [] none false none)).nameArg.getD cn))) := by
  induction js with
  | nil =>
    intro attrsC n attrsF nf hsort hagree h
    simp only [classAttrLoop, RResult.ok.injEq, Prod.mk.injEq] at h
    obtain ⟨-, h2⟩ := h
    subst h2
    simp
  | cons j rest ih =>
    intro attrsC n attrsF nf hsort hagree h
    have hsort2 := List.pairwise_cons.mp hsort
    simp only [classAttrLoop] at h
    cases hg : attrsC[j]? with
    | none => simp [removeAt, hg] at h
    | some a =>
      simp only [removeAt, hg, RResult.bind_ok] at h
      cases hid : a.get_ident with
      | none => rw [hid] at h; cases h
      | some g =>
        rw [hid] at h
        try dsimp only at h
        cases ha : n.add_item (a.nameArg.getD cn) cfgs
            (Stmt.setClass ident mo (a.nameArg.getD cn)) with
        | diverges => rw [ha] at h; cases h
        | panicked => rw [ha] at h; cases h
        | error msg => rw [ha] at h; cases h
        | ok n1 =>
          rw [ha] at h
          try dsimp only at h
          have hagree2 : ∀ j2 ∈ rest, (attrsC.eraseIdx j)[j2]? = attrs0[j2]? := by
            intro j2 hj2
            rw [List.getElem?_eraseIdx, if_pos (hsort2.1 j2 hj2)]
            exact hagree j2 (List.mem_cons_of_mem j hj2)
          have hrec := ih (attrsC.eraseIdx j) n1 attrsF nf hsort2.2 hagree2 h
          rw [hrec, ItemNursery.add_item_ok_items ha]
          have hj0 : attrs0[j]? = some a := (hagree j (List.mem_cons_self j rest)).symm.trans hg
          simp [hj0]

/-- C6: for a class-like item with pending attribute indices (sorted
ascending, all before the class annotation itself), a successful
generation appends exactly one registration entry per pending index,
in reverse collection order; each entry's binding name is that
attribute annotation's explicit name when given and otherwise the
resolved class name (the class annotation's explicit name, else the
declaration identifier), and every entry's statement injects the same
module-name metadata (the module's name). -/
theorem C6_class_pending_attribute_entries
    (index : Nat) (attr_name : String) (pyattrs : List Nat) (it : ItemKind)
    (ident : String) (attrs : List Attr) (ca : Attr) (m : Module) (cfgs : List Attr)
    (attrsF : List Attr) (m2 : Module)
    (hkind : it = ItemKind.structItem ident ∨ it = ItemKind.enumItem ident)
    (hsorted : pyattrs.Pairwise (· < ·))
    (hlt : ∀ j ∈ pyattrs, j < index)
    (hget : attrs[index]? = some ca)
    (h : PyItem.gen_module_item (PyItem.classItem index attr_name pyattrs) it attrs m cfgs
      = .ok (attrsF, m2)) :
    m2.module_extend_items.items = m.module_extend_items.items ++
      pyattrs.reverse.map (fun j =>
        Entry.mk ((attrs[j]?.getD (Attr.mk [] none false none)).nameArg.getD
            (ca.nameArg.getD ident)) cfgs
          (Stmt.setClass ident m.name
            ((attrs[j]?.getD (Attr.mk [] none false none)).nameArg.getD
              (ca.nameArg.getD ident)))) := by
  have hstruct : genClassItem index attr_name pyattrs (ItemKind.structItem ident)
      attrs m cfgs = .ok (attrsF, m2) := by
    rcases hkind with hk | hk <;> subst hk <;> exact h
  clear h hkind
  simp only [genClassItem] at hstruct
  rw [hget] at hstruct
  try dsimp only at hstruct
  rcases hna : (match pyattrs, ca.noattr with
    | [], false =>
      RResult.error ("#[" ++ attr_name ++
        "] requires #[pyattr] to be a module attribute. To keep it free type, try #["
        ++ attr_name ++ "(noattr)]")
    | [], true => RResult.ok { ca with noattr := false }
    | _ :: _, _ => RResult.ok ca) with _ | _ | msg | ca2
  all_goals rw [hna] at hstruct
  · cases hstruct
  · cases hstruct
  · cases hstruct
  · have hname : ca2.nameArg = ca.nameArg := by
      rcases pyattrs with _ | ⟨j0, rest0⟩ <;> rcases hnoattr : ca.noattr <;>
        rw [hnoattr] at hna <;> try dsimp only at hna
      · cases hna
      · cases hna; rfl
      · cases hna; rfl
      · cases hna; rfl
    simp only [RResult.bind_ok] at hstruct
    cases hid : ca2.get_ident with
    | none => rw [hid] at hstruct; cases hstruct
    | some g =>
      rw [hid] at hstruct
      try dsimp only at hstruct
      cases hl : classAttrLoop ident m.name (class_name_of ca2 ident) cfgs
          pyattrs.reverse
          (attrs.set index { ca2 with moduleArg := some (ca2.moduleArg.getD m.name) })
          m.module_extend_items with
      | diverges => rw [hl] at hstruct; cases hstruct
      | panicked => rw [hl] at hstruct; cases hstruct
      | error msg => rw [hl] at hstruct; cases hstruct
      | ok r =>
        obtain ⟨attrs3, nf⟩ := r
        rw [hl] at hstruct
        simp only [RResult.bind_ok, RResult.ok.injEq, Prod.mk.injEq] at hstruct
        obtain ⟨-, hm2⟩ := hstruct
        subst hm2
        have hrev_sorted : pyattrs.reverse.Pairwise (· > ·) :=
          List.pairwise_reverse.mpr hsorted
        have hagree : ∀ j ∈ pyattrs.reverse,
            (attrs.set index { ca2 with
              moduleArg := some (ca2.moduleArg.getD m.name) })[j]? = attrs[j]? := by
          intro j hj
          have hjlt : j < index := hlt j (List.mem_reverse.mp hj)
          exact List.getElem?_set_ne (Nat.ne_of_gt hjlt)
        have := classAttrLoop_spec ident m.name (class_name_of ca2 ident) cfgs attrs
          pyattrs.reverse _ m.module_extend_items attrs3 nf hrev_sorted hagree hl
        rw [this]
        have hcn : class_name_of ca2 ident = ca.nameArg.getD ident := by
          rw [class_name_of, hname]
        rw [hcn]

/-- C6 witness: `struct S` under `#[pyattr(name = "A")]`,
`#[pyattr(name = "B")]`, `#[pyclass]` yields exactly two entries, in
reverse collection order, named `B` then `A`, both statements carrying
the module name `mod`. -/
theorem C6_class_pending_attribute_entries_witness :
    (Module.mk "mod" ⟨[Entry.mk "B" [Attr.mk ["cfg"] none false none]
        (Stmt.setClass "S" "mod" "B"),
      Entry.mk "A" [Attr.mk ["cfg"] none false none]
        (Stmt.setClass "S" "mod" "A")]⟩).module_extend_items.items =
      (Module.mk "mod" ⟨[]⟩).module_extend_items.items ++
        [0, 1].reverse.map (fun j =>
          Entry.mk (([Attr.mk ["pyattr"] (some "A") false none,
              Attr.mk ["pyattr"] (some "B") false none,
              Attr.mk ["pyclass"] none false none][j]?.getD
                (Attr.mk [] none false none)).nameArg.getD
              ((Attr.mk ["pyclass"] none false none).nameArg.getD "S"))
            [Attr.mk ["cfg"] none false none]
            (Stmt.setClass "S" (Module.mk "mod" ⟨[]⟩).name
              (([Attr.mk ["pyattr"] (some "A") false none,
                Attr.mk ["pyattr"] (some "B") false none,
                Attr.mk ["pyclass"] none false none][j]?.getD
                  (Attr.mk [] none false none)).nameArg.getD
                ((Attr.mk ["pyclass"] none false none).nameArg.getD "S")))) :=
  C6_class_pending_attribute_entries 2 "pyclass" [0, 1]
    (ItemKind.structItem "S") "S"
    [Attr.mk ["pyattr"] (some "A") false none,
     Attr.mk ["pyattr"] (some "B") false none,
     Attr.mk ["pyclass"] none false none]
    (Attr.mk ["pyclass"] none false none)
    (Module.mk "mod" ⟨[]⟩) [Attr.mk ["cfg"] none false none]
    [Attr.mk ["pyclass"] none false (some "mod")]
    (Module.mk "mod" ⟨[Entry.mk "B" [Attr.mk ["cfg"] none false none]
        (Stmt.setClass "S" "mod" "B"),
      Entry.mk "A" [Attr.mk ["cfg"] none false none]
        (Stmt.setClass "S" "mod" "A")]⟩)
    (Or.inl rfl) (by decide) (by decide) rfl rfl

/-- C5: across all items of a module, the binding names in the nursery
are pairwise distinct whenever compilation succeeds; and a module with
two items resolving to the same binding name (shown for two
function-role items, with explicit or defaulted names) fails with the
NameCollisionError message, so no output is emitted for it. -/
theorem C5_binding_names_distinct_and_collision :
    (∀ (moduleName : String) (items : List Item) (out : ModuleOutput),
       impl_pymodule moduleName items = .ok out →
       (out.extendItems.items.map Entry.name).Nodup) ∧
    (∀ (mn f1 f2 : String) (n1 n2 : Option String),
       n1.getD f1 = n2.getD f2 →
       impl_pymodule mn
         [Item.mk (ItemKind.fnItem f1) (some [Attr.mk ["pyfunction"] n1 false none]),
          Item.mk (ItemKind.fnItem f2) (some [Attr.mk ["pyfunction"] n2 false none])] =
         .error ("duplicate module item: " ++ n2.getD f2)) := by
  constructor
  · intro moduleName items out h
    unfold impl_pymodule at h
    cases hp : processItems items ⟨moduleName, ⟨[]⟩⟩ with
    | diverges => rw [hp] at h; cases h
    | panicked => rw [hp] at h; cases h
    | error msg => rw [hp] at h; cases h
    | ok r =>
      obtain ⟨items2, mF⟩ := r
      rw [hp] at h
      try dsimp only at h
      cases h
      exact processItems_preserves (fun n => (n.items.map Entry.name).Nodup)
        (fun n name cfgs stmt n2 hnd ha => ItemNursery.add_item_nodup hnd ha)
        items _ _ _ (by simp) hp
  · intro mn f1 f2 n1 n2 hsame
    unfold impl_pymodule
    simp only [processItems, processItem_pyfunction, hsame]
    simp [ItemNursery.add_item]

/-- C5 witness: a single function item compiles with distinct nursery
names, and two function items both exposed as `"x"` collide. -/
theorem C5_binding_names_distinct_and_collision_witness :
    (((ModuleOutput.mk [Item.mk (ItemKind.fnItem "f") (some [])] "m"
        ⟨[Entry.mk "x" [] (Stmt.setFunc "f" "m" "x")]⟩).extendItems.items.map
          Entry.name).Nodup)
    ∧ impl_pymodule "m"
        [Item.mk (ItemKind.fnItem "f")
          (some [Attr.mk ["pyfunction"] (some "x") false none]),
         Item.mk (ItemKind.fnItem "g")
          (some [Attr.mk ["pyfunction"] (some "x") false none])] =
      .error ("duplicate module item: " ++ (some "x").getD "g") :=
  ⟨C5_binding_names_distinct_and_collision.1 "m"
      [Item.mk (ItemKind.fnItem "f")
        (some [Attr.mk ["pyfunction"] (some "x") false none])]
      (ModuleOutput.mk [Item.mk (ItemKind.fnItem "f") (some [])] "m"
        ⟨[Entry.mk "x" [] (Stmt.setFunc "f" "m" "x")]⟩) rfl,
   C5_binding_names_distinct_and_collision.2 "m" "f" "g" (some "x") (some "x") rfl⟩

/-- C8 counterexample: the claim says processing an item that carries
no role annotations is a no-op, but an item whose only annotation is
the multi-segment `#[foo::bar]` (no role annotation at all) makes the
first classification loop diverge: processing never completes and in
particular never returns the item unchanged. -/
theorem C8_counterexample :
    processItem (Item.mk (ItemKind.fnItem "f")
        (some [Attr.mk ["foo", "bar"] none false none])) (Module.mk "m" ⟨[]⟩) =
      RResult.diverges
    ∧ processItem (Item.mk (ItemKind.fnItem "f")
        (some [Attr.mk ["foo", "bar"] none false none])) (Module.mk "m" ⟨[]⟩) ≠
      RResult.ok (Item.mk (ItemKind.fnItem "f")
        (some [Attr.mk ["foo", "bar"] none false none]), Module.mk "m" ⟨[]⟩) :=
  ⟨rfl, by decide⟩

/-- C8 (amended): processing an item without an annotation list, or an
item all of whose annotations bear plain single-segment names none of
which is a recognized role name, is a no-op: the item is returned with
its annotation list unchanged and no entry is added to the nursery.
(An annotation without a single-segment name before the first role
annotation instead makes the first classification loop diverge.) -/
theorem C8_noop_without_roles :
    (∀ (it : Item) (m : Module), it.attrs = none → processItem it m = .ok (it, m)) ∧
    (∀ (it : Item) (m : Module) (attrsL : List Attr), it.attrs = some attrsL →
       (∀ a ∈ attrsL, harmlessAttr a = true) →
       processItem it m = .ok (it, m)) := by
  constructor
  · intro it m h
    unfold processItem
    rw [h]
  · intro it m attrsL hattrs hall
    have hallE : ∀ x ∈ attrsL.enum, harmlessAttr x.2 = true := by
      intro x hx
      have h2 : x.2 ∈ attrsL.enum.map Prod.snd := List.mem_map_of_mem Prod.snd hx
      rw [List.enum_map_snd] at h2
      exact hall _ h2
    obtain ⟨cfgs, hph1⟩ := phase1_all_harmless attrsL.enum [] hallE
    have hcl : attrs_to_pyitems attrsL new_item = .ok ([], cfgs) := by
      unfold attrs_to_pyitems
      rw [hph1]
      simp [phase2List]
    unfold processItem
    rw [hattrs]
    dsimp only
    rw [hcl]
    dsimp only
    simp only [List.reverse_nil, genPyItems]
    obtain ⟨kind, attrs0⟩ := it
    simp only [Item.attrs] at hattrs
    subst hattrs
    rfl

/-- C8 witness: an item without an annotation list, and a function
item annotated only with a guard and an unrelated annotation, are both
left untouched and add nothing. -/
theorem C8_noop_without_roles_witness :
    processItem (Item.mk ItemKind.otherItem none) (Module.mk "m" ⟨[]⟩) =
      RResult.ok (Item.mk ItemKind.otherItem none, Module.mk "m" ⟨[]⟩)
    ∧ processItem (Item.mk (ItemKind.fnItem "f")
        (some [Attr.mk ["cfg"] none false none, Attr.mk ["serde"] none false none]))
        (Module.mk "m" ⟨[]⟩) =
      RResult.ok (Item.mk (ItemKind.fnItem "f")
        (some [Attr.mk ["cfg"] none false none, Attr.mk ["serde"] none false none]),
        Module.mk "m" ⟨[]⟩) :=
  ⟨C8_noop_without_roles.1 _ _ rfl,
   C8_noop_without_roles.2 _ _ _ rfl (by decide)⟩

end RP
